import Mathlib

/-!
Shallow embedding of the task-pipeline execution engine of
`src/orchestrator.py` (functions `_resolve_vars`, `_run_step`, the step loop
of `main`, and the masked diagnostic snapshot), together with theorems that
settle the frozen claims about it.

Python dictionaries are modelled as insertion-ordered association lists with
the `dictGet`/`dictSet`/`dictUpdate` operations below, which mirror `d[k]`,
`d[k] = v` (replace-in-place, keeping insertion order) and `d.update(e)`.
Python string values are Lean `String`s; machine behaviour that depends on
the ambient process (the importable modules, `os.environ`, the filesystem
consulted by `Path.exists`) is passed explicitly as parameters.
-/

namespace Orchestrator

/-- Python values as they occur in the orchestrator's context, kwargs and
capability results: strings, ints, bools, `None`, lists and dicts.
(`_resolve_vars` also accepts tuples; YAML input never produces them, and
they are not modelled separately from lists.) -/
inductive Value where
  | vstr  (s : String)
  | vint  (n : Int)
  | vbool (b : Bool)
  | vnone
  | vlist (xs : List Value)
  | vdict (kvs : List (String × Value))

/-- A Python dict with string keys, as an insertion-ordered association list. -/
abbrev ValueDict := List (String × Value)

/-- The orchestrator's shared mutable context dict. -/
abbrev Ctx := ValueDict

/-- The process environment `os.environ`, consulted by `os.path.expandvars`. -/
abbrev EnvVars := List (String × String)

/-- Lookup in an association list with string keys (`d.get(k)` / `k in d`). -/
def alistGet {α : Type} : List (String × α) → String → Option α
  | [], _ => none
  | (k, v) :: tl, key => if k = key then some v else alistGet tl key

/-- Model of `d.get(k)`: `dictGet d k` models `d.get(k)` on a Python dict. -/
def dictGet (d : ValueDict) (key : String) : Option Value := alistGet d key

/-- Model of assignment: `dictSet d k v` models `d[k] = v`: an existing key keeps its position and
gets the new value; a new key is appended. -/
def dictSet : ValueDict → String → Value → ValueDict
  | [], key, val => [(key, val)]
  | (k, v) :: tl, key, val =>
    if k = key then (k, val) :: tl else (k, v) :: dictSet tl key val

/-- Model of update: `dictUpdate d e` models `d.update(e)` (also the merge `{**d, **e}`):
every key/value of `e` is assigned into `d` in order. -/
def dictUpdate (d e : ValueDict) : ValueDict :=
  e.foldl (fun acc kv => dictSet acc kv.1 kv.2) d

/-- Python exceptions that the modelled code can raise.  The source raises
only builtin exception types (`ModuleNotFoundError`, `AttributeError`,
`ValueError`, `KeyError`, `IndexError`, `TypeError`).  The constructors
`taskResolutionError` and `taskExecutionError` are modelled from the spec:
the spec's error model names classes `TaskResolutionError` and
`TaskExecutionError`, but no such classes are defined anywhere in the
source; the constructors exist here only so that claims mentioning them can
be stated and refuted. -/
inductive PyError where
  | moduleNotFoundError (name : String)
  | attributeError (msg : String)
  | valueError (msg : String)
  | keyError (key : String)
  | indexError (msg : String)
  | typeError (msg : String)
  | taskResolutionError (msg : String)
  | taskExecutionError (msg : String)
deriving DecidableEq

mutual
/-- Structural size of a value, used as recursion fuel (always strictly
larger than the nesting depth). -/
def valueSize : Value → Nat
  | .vstr _ => 1
  | .vint _ => 1
  | .vbool _ => 1
  | .vnone => 1
  | .vlist xs => valueListSize xs + 1
  | .vdict kvs => valuePairsSize kvs + 1

/-- Size of a list of values. -/
def valueListSize : List Value → Nat
  | [] => 0
  | x :: xs => valueSize x + valueListSize xs + 1

/-- Size of a list of key/value pairs. -/
def valuePairsSize : List (String × Value) → Nat
  | [] => 0
  | (_, v) :: tl => valueSize v + valuePairsSize tl + 1
end

/-- True exactly for the spec's `TaskResolutionError` class. -/
def isTaskResolutionError : PyError → Bool
  | .taskResolutionError _ => true
  | _ => false

/-- True exactly for the spec's `TaskExecutionError` class. -/
def isTaskExecutionError : PyError → Bool
  | .taskExecutionError _ => true
  | _ => false

/-- The `{` character (written via its code point to keep brace characters
out of string literals). -/
def lbrace : Char := Char.ofNat 123

/-- The `}` character. -/
def rbrace : Char := Char.ofNat 125

/-- The `'` character used by Python `repr` of strings. -/
def squote : String := String.singleton (Char.ofNat 39)

/-- Comma-space joining, as in Python `", ".join(...)` and list/dict `repr`. -/
def joinComma : List String → String
  | [] => ""
  | [s] => s
  | s :: rest => s ++ ", " ++ joinComma rest

mutual
/-- Python `repr(v)`, fuel-bounded so the definition is structural (the fuel
passed by callers always exceeds the value's nesting depth, so the 0 branch
is unreachable).  String escaping inside `repr` is not modelled. -/
def pyRepr : Nat → Value → String
  | 0, _ => ""
  | _ + 1, .vstr s => squote ++ s ++ squote
  | _ + 1, .vint n => toString n
  | _ + 1, .vbool b => if b then "True" else "False"
  | _ + 1, .vnone => "None"
  | fuel + 1, .vlist xs => "[" ++ joinComma (pyReprList fuel xs) ++ "]"
  | fuel + 1, .vdict kvs => "\x7b" ++ joinComma (pyReprPairs fuel kvs) ++ "\x7d"

/-- Apply `repr` to each element of a list. -/
def pyReprList : Nat → List Value → List String
  | _, [] => []
  | fuel, x :: xs => pyRepr fuel x :: pyReprList fuel xs

/-- Apply `repr` to each `'key': value` entry of a dict. -/
def pyReprPairs : Nat → List (String × Value) → List String
  | _, [] => []
  | fuel, (k, v) :: tl =>
    (squote ++ k ++ squote ++ ": " ++ pyRepr fuel v) :: pyReprPairs fuel tl
end

/-- Python `str(v)`: the string itself for strings, `repr` otherwise
(which coincides with `str` for ints, bools, `None`, lists and dicts). -/
def pyStr (fuel : Nat) (v : Value) : String :=
  match v with
  | .vstr s => s
  | v => pyRepr fuel v

/-- Split a character list at the first occurrence of `sep`: returns the
part before it and, when `sep` occurs, the part after it. -/
def splitAtFirst (sep : Char) : List Char → List Char × Option (List Char)
  | [] => ([], none)
  | c :: rest =>
    if c = sep then ([], some rest)
    else
      let p := splitAtFirst sep rest
      (c :: p.1, p.2)

/-- Scan to the first `}`: returns the characters before it and the rest
after it, or `none` when the list has no `}`. -/
def splitField : List Char → Option (List Char × List Char)
  | [] => none
  | c :: rest =>
    if c = rbrace then some ([], rest)
    else (splitField rest).map (fun p => (c :: p.1, p.2))

/-- Substitution of one `str.format` replacement field `name[!conv][:spec]`
against the keyword namespace `ns`.  Modelled subset: conversions `!s`,
`!r`, `!a` and the empty format spec are supported; attribute/index
accessors in the field name and non-empty format specs (none of which the
repository's pipeline templates use) are reported as errors, which the
caller of `str.format` turns into the silent original-text fallback. -/
def formatField (ns : ValueDict) (field : List Char) : Except PyError (List Char) :=
  let p := splitAtFirst ':' field
  let q := splitAtFirst '!' p.1
  let nameCs := q.1
  if nameCs.isEmpty then
    .error (.indexError "Replacement index 0 out of range")
  else if nameCs.all Char.isDigit then
    .error (.indexError "Replacement index out of range")
  else if nameCs.any (fun c => c = '.' || c = '[') then
    .error (.valueError "attribute and index accessors are outside the modelled subset")
  else
    match dictGet ns (String.mk nameCs) with
    | none => .error (.keyError (String.mk nameCs))
    | some v =>
      let converted : Except PyError Value :=
        match q.2 with
        | none => .ok v
        | some ['s'] => .ok (.vstr (pyStr (valueSize v + 1) v))
        | some ['r'] => .ok (.vstr (pyRepr (valueSize v + 1) v))
        | some ['a'] => .ok (.vstr (pyRepr (valueSize v + 1) v))
        | some _ => .error (.valueError "Invalid conversion specifier")
      match converted with
      | .error e => .error e
      | .ok w =>
        match p.2 with
        | none => .ok (pyStr (valueSize w + 1) w).data
        | some [] => .ok (pyStr (valueSize w + 1) w).data
        | some _ => .error (.valueError "format specifications are outside the modelled subset")

/-- The scanning loop of `str.format(**ns)`: literal text is copied, `{{`
and `}}` are escapes for the brace characters, a lone `}` or an unterminated
`{` is a `ValueError`, and each `{field}` is substituted via `formatField`.
Fuel-bounded to stay structural; callers pass fuel exceeding the character
count, so exhaustion is unreachable. -/
def pyFormatAux (ns : ValueDict) : Nat → List Char → Except PyError (List Char)
  | 0, _ => .error (.valueError "format: fuel exhausted")
  | _ + 1, [] => .ok []
  | fuel + 1, c :: rest =>
    if c = lbrace then
      match rest with
      | [] => .error (.valueError "Single brace encountered in format string")
      | d :: rest2 =>
        if d = lbrace then (pyFormatAux ns fuel rest2).map (fun out => lbrace :: out)
        else
          match splitField (d :: rest2) with
          | none => .error (.valueError "expected closing brace before end of string")
          | some (field, rest3) =>
            match formatField ns field with
            | .error e => .error e
            | .ok txt => (pyFormatAux ns fuel rest3).map (fun out => txt ++ out)
    else if c = rbrace then
      match rest with
      | d :: rest2 =>
        if d = rbrace then (pyFormatAux ns fuel rest2).map (fun out => rbrace :: out)
        else .error (.valueError "Single brace encountered in format string")
      | [] => .error (.valueError "Single brace encountered in format string")
    else (pyFormatAux ns fuel rest).map (fun out => c :: out)

/-- Model of `s.format(**ns)` as called by `_resolve_vars` (all namespace entries are
keyword arguments; no positional arguments are passed). -/
def pyFormat (s : String) (ns : ValueDict) : Except PyError String :=
  (pyFormatAux ns (s.data.length + 1) s.data).map String.mk

/-- Lookup in the process environment. -/
def envGet : EnvVars → String → Option String
  | [], _ => none
  | (k, v) :: tl, key => if k = key then some v else envGet tl key

/-- A character of the `\w` class of `os.path.expandvars`' ASCII regex. -/
def isWordChar (c : Char) : Bool := c.isAlphanum || c = '_'

/-- The scanning loop of `os.path.expandvars` (POSIX semantics): `$name` and
`${name}` are replaced by the environment value when the variable is set and
left unchanged otherwise; replaced text is not rescanned.  Fuel-bounded to
stay structural; callers pass fuel exceeding the character count. -/
def expandVarsAux (envv : EnvVars) : Nat → List Char → List Char
  | 0, cs => cs
  | _ + 1, [] => []
  | fuel + 1, c :: rest =>
    if c = '$' then
      match rest with
      | [] => [c]
      | d :: rest2 =>
        if d = lbrace then
          match splitField rest2 with
          | none => c :: expandVarsAux envv fuel rest
          | some (nameCs, rest3) =>
            match envGet envv (String.mk nameCs) with
            | some v => v.data ++ expandVarsAux envv fuel rest3
            | none => c :: d :: (nameCs ++ rbrace :: expandVarsAux envv fuel rest3)
        else if isWordChar d then
          let nameCs := (d :: rest2).takeWhile isWordChar
          let rest3 := (d :: rest2).dropWhile isWordChar
          match envGet envv (String.mk nameCs) with
          | some v => v.data ++ expandVarsAux envv fuel rest3
          | none => c :: (nameCs ++ expandVarsAux envv fuel rest3)
        else c :: expandVarsAux envv fuel rest
    else c :: expandVarsAux envv fuel rest

/-- Model of `os.path.expandvars(s)` against the explicit environment `envv`. -/
def expandvars (envv : EnvVars) (s : String) : String :=
  String.mk (expandVarsAux envv (s.data.length + 1) s.data)

/-- The recursion of `_resolve_vars`, fuel-bounded by value depth so the
definition is structural (callers pass `sizeOf v + 1`, which exceeds the
nesting depth, so the 0 branch is unreachable).  A string is formatted
against the merged namespace `{**vars, **ctx}`; on any formatting failure
the original text is kept; either way `os.path.expandvars` then runs on the
result.  Dicts and lists are rebuilt with every value resolved; other
values pass through unchanged. -/
def resolveVarsFuel (vars ctx : ValueDict) (envv : EnvVars) : Nat → Value → Value
  | 0, v => v
  | _ + 1, .vstr s =>
    match pyFormat s (dictUpdate vars ctx) with
    | .ok out => .vstr (expandvars envv out)
    | .error _ => .vstr (expandvars envv s)
  | fuel + 1, .vdict kvs =>
    .vdict (kvs.map (fun kv => (kv.1, resolveVarsFuel vars ctx envv fuel kv.2)))
  | fuel + 1, .vlist xs => .vlist (xs.map (resolveVarsFuel vars ctx envv fuel))
  | _ + 1, v => v

/-- Model of `_resolve_vars(val, vars, ctx)` of `src/orchestrator.py`, with the
process environment passed explicitly. -/
def _resolve_vars (val : Value) (vars ctx : ValueDict) (envv : EnvVars) : Value :=
  resolveVarsFuel vars ctx envv (valueSize val + 1) val

/-! ## Task resolution and step execution (`_run_step`) -/

/-- A task capability: a Python callable.  The first argument models the
positional context argument (`fn(dict(ctx), **kwargs)` passes a snapshot,
`fn(**kwargs)` passes none); the second is the keyword-argument dict.  A
raising implementation is modelled by returning an error. -/
def PyFn : Type := Option Ctx → ValueDict → Except PyError Value

/-- A Python module as `import_module` returns it: its named attributes
that can serve as task entry points. -/
structure PyModule where
  attrs : List (String × PyFn)

/-- The importable modules of the ambient process, as consulted by
`importlib.import_module`. -/
abbrev ModuleEnv := List (String × PyModule)

/-- Lookup of an importable module in the explicit module environment (the
finder underlying `import_module`). -/
def importModule : ModuleEnv → String → Option PyModule
  | [], _ => none
  | (k, m) :: tl, key => if k = key then some m else importModule tl key

/-- Model of `importlib.import_module(name)`: an empty module name raises
`ValueError` (CPython's "Empty module name"), a name the finder does not
know raises `ModuleNotFoundError`, and otherwise the module is returned. -/
def import_module (env : ModuleEnv) (name : String) : Except PyError PyModule :=
  if name = "" then .error (.valueError "Empty module name")
  else
    match importModule env name with
    | some m => .ok m
    | none => .error (.moduleNotFoundError name)

/-- Model of `getattr(module, attr)` restricted to callable attributes. -/
def getattrFn (m : PyModule) (attr : String) : Option PyFn :=
  alistGet m.attrs attr

/-- What `fn` holds after the resolution lines of `_run_step`: either a
specific callable attribute, or the module object itself (for an
unqualified task name). -/
inductive Invocable where
  | fn (f : PyFn)
  | modObj (m : PyModule)

/-- Split a character list at every `:` (Python `name.split(":")`). -/
def splitColon : List Char → List (List Char)
  | [] => [[]]
  | c :: rest =>
    if c = ':' then [] :: splitColon rest
    else
      match splitColon rest with
      | h :: t => (c :: h) :: t
      | [] => [[c]]

/-- The task-name resolution of `_run_step`:
`mod, attr = name.split(":") if ":" in name else (name, None)` followed by
`module = import_module(mod)` and `fn = getattr(module, attr) if attr else
module`.  The `if attr` test is Python truthiness: both `None` (unqualified
name) and the empty string (a name ending in the colon) are falsy, so both
yield the module object itself.  A name with two or more colons makes the
tuple unpacking raise `ValueError` before any import; `import_module`
raises `ValueError` on an empty module name and `ModuleNotFoundError` on an
unknown one; a missing attribute raises `AttributeError`. -/
def resolveTask (env : ModuleEnv) (name : String) : Except PyError Invocable :=
  match splitColon name.data with
  | [mcs] =>
    match import_module env (String.mk mcs) with
    | .ok m => .ok (.modObj m)
    | .error e => .error e
  | [mcs, acs] =>
    match import_module env (String.mk mcs) with
    | .ok m =>
      if acs.isEmpty then .ok (.modObj m)
      else
        match getattrFn m (String.mk acs) with
        | some f => .ok (.fn f)
        | none => .error (.attributeError (String.mk acs))
    | .error e => .error e
  | _ => .error (.valueError "too many values to unpack")

/-- Calling the resolved object.  A module object is not callable in
Python, so invoking an unqualified task raises `TypeError`. -/
def invoke : Invocable → Option Ctx → ValueDict → Except PyError Value
  | .modObj _, _, _ => .error (.typeError "module object is not callable")
  | .fn f, posCtx, kwargs => f posCtx kwargs

/-- One pipeline step as read from the YAML document: the fields
`_run_step` and the `main` loop consult.  `none` models an absent field. -/
structure Step where
  task : String
  mode : Option String := none
  result_key : Option String := none
  kwargs : Option ValueDict := none
  whenCond : Option ValueDict := none

/-- The structured log events the engine emits (`log.info` calls of
`_run_step` and the `main` loop), keeping the data rather than the
rendered text. -/
inductive LogEvent where
  | start (task : String) (kwargs : ValueDict)
  | endStep (task : String)
  | skip (task : String) (path : String)
  | resultItems (key : String) (n : Nat)
  | resultStamped (stampedCount outputDir : Option Value)
  | resultKeys (key : String) (keys : List String)

/-- The log as a list of events. -/
abbrev Log := List LogEvent

/-- Outcome of running a step or a pipeline.  On an uncaught exception the
error carries the context dict as it stood when the exception unwound
(Python mutates the context in place, so that state exists at unwind time
even though `main` does not hand it to its caller) and the log emitted so
far. -/
inductive RunResult where
  | ok (ctx : Ctx) (log : Log)
  | err (e : PyError) (ctx : Ctx) (log : Log)

/-- Insert a string into a sorted list (ascending). -/
def insertStr (s : String) : List String → List String
  | [] => [s]
  | t :: ts => if s ≤ t then s :: t :: ts else t :: insertStr s ts

/-- Model of `sorted(keys)` of Python, by string order. -/
def sortStrings : List String → List String
  | [] => []
  | s :: ss => insertStr s (sortStrings ss)

/-- Model of `vars_dict = ctx.get("__vars__", {})`.  A non-dict value stored under
`__vars__` would make the merge inside `str.format`'s protected call raise
(falling back to the original text); that pathological case is modelled as
the empty namespace. -/
def ctxVars (ctx : Ctx) : ValueDict :=
  match dictGet ctx "__vars__" with
  | some (.vdict d) => d
  | _ => []

/-- The resolved keyword arguments of a step:
`_resolve_vars(step.get("kwargs", {}) or {}, ctx.get("__vars__", {}), ctx)`. -/
def stepKwargs (step : Step) (ctx : Ctx) (envv : EnvVars) : ValueDict :=
  match _resolve_vars (.vdict (step.kwargs.getD [])) (ctxVars ctx) ctx envv with
  | .vdict d => d
  | _ => []

/-- The helpful result logging of raw mode: list results log their length,
dict results either the stamped-count summary or the sorted key list. -/
def rawResultLog (rk : String) (out : Value) : Log :=
  match out with
  | .vlist xs => [.resultItems rk xs.length]
  | .vdict d =>
    if (dictGet d "stamped_count").isSome then
      [.resultStamped (dictGet d "stamped_count") (dictGet d "output_dir")]
    else
      [.resultKeys rk (sortStrings (d.map Prod.fst))]
  | _ => []

/-- Model of `_run_step(step, ctx, log)` of `src/orchestrator.py`: resolve the task
name, log START, dispatch in `raw` mode (kwargs only; the return value is
stored under `result_key` when one is set) or otherwise in update mode (a
context snapshot plus kwargs; a dict return value is merged into the live
context via `ctx.update`), log END, and return the context.  Any raised
exception propagates unchanged, carrying the context as already mutated. -/
def _run_step (env : ModuleEnv) (envv : EnvVars) (step : Step) (ctx : Ctx)
    (log : Log) : RunResult :=
  let name := step.task
  let mode := step.mode.getD "task"
  let kwargs := stepKwargs step ctx envv
  match resolveTask env name with
  | .error e => .err e ctx log
  | .ok fn =>
    let log1 := log ++ [LogEvent.start name kwargs]
    if mode = "raw" then
      match invoke fn none kwargs with
      | .error e => .err e ctx log1
      | .ok out =>
        match step.result_key with
        | none => .ok ctx (log1 ++ [LogEvent.endStep name])
        | some rk =>
          .ok (dictSet ctx rk out)
            (log1 ++ rawResultLog rk out ++ [LogEvent.endStep name])
    else
      match invoke fn (some ctx) kwargs with
      | .error e => .err e ctx log1
      | .ok out =>
        let ctx2 := match out with
          | .vdict d => dictUpdate ctx d
          | _ => ctx
        .ok ctx2 (log1 ++ [LogEvent.endStep name])

/-! ## The step loop of `main` -/

/-- Convert the resolved guard operand to a filesystem path
(`pathlib.Path(...)`): only strings are accepted, anything else raises
`TypeError`. -/
def valueToPath : Value → Except PyError String
  | .vstr s => .ok s
  | _ => .error (.typeError "argument should be a str or an os.PathLike object")

/-- The guard evaluation of the `main` loop:
`cond = step.get("when")`; when `cond` is truthy and has a `file_exists`
key, its operand is resolved against the run-level vars and the context and
checked against the filesystem `fs`.  Returns `some path` when the step
must be skipped (path missing), `none` when it must run. -/
def guardCheck (envv : EnvVars) (fs : String → Bool) (varsCfg : ValueDict)
    (step : Step) (ctx : Ctx) : Except PyError (Option String) :=
  match step.whenCond with
  | none => .ok none
  | some cond =>
    if cond.isEmpty then .ok none
    else
      match dictGet cond "file_exists" with
      | none => .ok none
      | some tmpl =>
        match valueToPath (_resolve_vars tmpl varsCfg ctx envv) with
        | .error e => .error e
        | .ok p => if fs p then .ok none else .ok (some p)

/-- The `for step in pipeline` loop of `main`: each step is either skipped
(guard present, path missing: a SKIP event is logged and the context is
untouched) or run via `_run_step`; an uncaught exception aborts the whole
loop. -/
def runSteps (env : ModuleEnv) (envv : EnvVars) (fs : String → Bool)
    (varsCfg : ValueDict) : List Step → Ctx → Log → RunResult
  | [], ctx, log => .ok ctx log
  | step :: rest, ctx, log =>
    match guardCheck envv fs varsCfg step ctx with
    | .error e => .err e ctx log
    | .ok (some p) =>
      runSteps env envv fs varsCfg rest ctx (log ++ [LogEvent.skip step.task p])
    | .ok none =>
      match _run_step env envv step ctx log with
      | .ok ctx2 log2 => runSteps env envv fs varsCfg rest ctx2 log2
      | .err e ctx2 log2 => .err e ctx2 log2

/-- The initial context of a run: `ctx = {"__vars__": vars_cfg}`. -/
def initCtx (varsCfg : ValueDict) : Ctx := [("__vars__", Value.vdict varsCfg)]

/-- A whole pipeline run from the initial context with an empty log. -/
def runPipeline (env : ModuleEnv) (envv : EnvVars) (fs : String → Bool)
    (varsCfg : ValueDict) (steps : List Step) : RunResult :=
  runSteps env envv fs varsCfg steps (initCtx varsCfg) []

/-! ## The masked diagnostic snapshot of `main` -/

/-- Whether `needle` occurs as a contiguous sublist of `hay`
(Python's `needle in hay` on strings, on the character lists). -/
def isSubAt : List Char → List Char → Bool
  | [], _ => true
  | _ :: _, [] => false
  | n :: ns, h :: hs => n = h && isSubAt ns hs

/-- Substring search: `needle in hay`. -/
def containsSub : List Char → List Char → Bool
  | [], needle => needle.isEmpty
  | h :: hs, needle => isSubAt needle (h :: hs) || containsSub hs needle

/-- ASCII lowercasing of a character list (`k.lower()`; non-ASCII
lowercasing is not modelled, and no key of this system uses it). -/
def lowerChars (cs : List Char) : List Char := cs.map Char.toLower

/-- Whether a context key contains the substring `pass`, case-insensitively
(`"pass" in k.lower()`). -/
def containsPass (k : String) : Bool := containsSub (lowerChars k.data) "pass".data

/-- Model of `safe_ctx = {k: ("***" if "pass" in k.lower() else v) for k, v in
ctx.items()}` of `main`. -/
def safe_ctx (ctx : Ctx) : Ctx :=
  ctx.map (fun kv => (kv.1, if containsPass kv.1 then Value.vstr "***" else kv.2))

/-! ## Concrete capabilities and steps used to instantiate the theorems -/

/-- A concrete update-mode capability: returns a one-key mapping. -/
def wFn : PyFn := fun _ kw => .ok (.vdict [("got", (dictGet kw "x").getD .vnone)])

/-- A concrete capability that raises `ValueError` when invoked. -/
def wBoom : PyFn := fun _ _ => .error (.valueError "boom")

/-- A concrete raw-mode capability: returns a list. -/
def wRawFn : PyFn := fun _ kw => .ok (.vlist [(dictGet kw "x").getD .vnone])

/-- A concrete capability whose returned mapping targets the reserved
`__vars__` key. -/
def wSetVars : PyFn := fun _ _ => .ok (.vdict [("__vars__", Value.vnone)])

/-- A concrete module environment exposing the capabilities above. -/
def wEnv : ModuleEnv :=
  [("wmod", ⟨[("f", wFn), ("boom", wBoom), ("r", wRawFn), ("setvars", wSetVars)]⟩)]

/-- A concrete update-mode step. -/
def wStepF : Step := { task := "wmod:f" }

/-- A concrete raw-mode step storing its result under `out`. -/
def wStepRaw : Step := { task := "wmod:r", mode := some "raw", result_key := some "out" }

/-- A concrete step whose mode string is unrecognized. -/
def wStepBanana : Step := { task := "wmod:f", mode := some "banana" }

/-- A concrete guarded step. -/
def wStepGuard : Step :=
  { task := "wmod:f", whenCond := some [("file_exists", .vstr "/data/in.xlsx")] }

/-! ## Association-list lemmas (Python dict laws) -/

/-- Assigning a key makes lookup of that key return the assigned value. -/
theorem dictGet_dictSet_self (d : ValueDict) (k : String) (v : Value) :
    dictGet (dictSet d k v) k = some v := by
  induction d with
  | nil => simp [dictGet, dictSet, alistGet]
  | cons kv tl ih =>
    by_cases h : kv.1 = k
    · simp [dictGet, dictSet, alistGet, h]
    · simpa [dictGet, dictSet, alistGet, h] using ih

/-- Assigning a key leaves lookups of other keys unchanged. -/
theorem dictGet_dictSet_ne (d : ValueDict) (k k' : String) (v : Value)
    (h : k' ≠ k) : dictGet (dictSet d k v) k' = dictGet d k' := by
  have h' : k ≠ k' := Ne.symm h
  induction d with
  | nil => simp [dictGet, dictSet, alistGet, h']
  | cons kv tl ih =>
    obtain ⟨k0, v0⟩ := kv
    by_cases hk : k0 = k
    · subst hk
      simp [dictGet, dictSet, alistGet, h']
    · by_cases hk' : k0 = k'
      · simp [dictGet, dictSet, alistGet, hk, hk', h]
      · simpa [dictGet, dictSet, alistGet, hk, hk'] using ih

/-- Unfolding lemma: `dictUpdate` on a cons unfolds to an assignment followed by the rest. -/
theorem dictUpdate_cons (d : ValueDict) (k : String) (v : Value) (e : ValueDict) :
    dictUpdate d ((k, v) :: e) = dictUpdate (dictSet d k v) e := rfl

/-- A key absent from the update mapping keeps its pre-update value. -/
theorem dictGet_dictUpdate_none (d e : ValueDict) (k : String)
    (h : dictGet e k = none) : dictGet (dictUpdate d e) k = dictGet d k := by
  induction e generalizing d with
  | nil => rfl
  | cons kv tl ih =>
    obtain ⟨k0, v0⟩ := kv
    by_cases hk : k0 = k
    · simp [dictGet, alistGet, hk] at h
    · have h' : dictGet tl k = none := by simpa [dictGet, alistGet, hk] using h
      rw [dictUpdate_cons, ih (dictSet d k0 v0) h', dictGet_dictSet_ne]
      exact fun hh => hk hh.symm

/-- A key absent from an association list (as a key set) looks up to `none`. -/
theorem dictGet_eq_none_of_not_mem (e : ValueDict) (k : String)
    (h : k ∉ e.map Prod.fst) : dictGet e k = none := by
  induction e with
  | nil => rfl
  | cons kv tl ih =>
    simp only [List.map_cons, List.mem_cons] at h
    push_neg at h
    have : kv.1 ≠ k := fun hh => h.1 hh.symm
    simpa [dictGet, alistGet, this] using ih h.2

/-- Every binding of a duplicate-free update mapping is present afterwards
with its value, overwriting whatever the key held before. -/
theorem dictGet_dictUpdate_of_mem (d e : ValueDict) (k : String) (v : Value)
    (hnodup : (e.map Prod.fst).Nodup) (h : dictGet e k = some v) :
    dictGet (dictUpdate d e) k = some v := by
  induction e generalizing d with
  | nil => simp [dictGet, alistGet] at h
  | cons kv tl ih =>
    obtain ⟨k0, v0⟩ := kv
    simp only [List.map_cons, List.nodup_cons] at hnodup
    by_cases hk : k0 = k
    · subst hk
      simp only [dictGet, alistGet, if_pos rfl] at h
      injection h with h0
      subst h0
      have habs : dictGet tl k0 = none :=
        dictGet_eq_none_of_not_mem tl k0 hnodup.1
      rw [dictUpdate_cons, dictGet_dictUpdate_none _ _ _ habs,
        dictGet_dictSet_self]
    · have h' : dictGet tl k = some v := by simpa [dictGet, alistGet, hk] using h
      rw [dictUpdate_cons]
      exact ih (dictSet d k0 v0) hnodup.2 h'

/-! ## Formatting lemmas -/

/-- On text with no brace characters, the `str.format` scan is the
identity (given sufficient fuel, as all callers supply). -/
theorem pyFormatAux_plain (ns : ValueDict) (cs : List Char) :
    ∀ fuel, cs.length < fuel → (∀ c ∈ cs, c ≠ lbrace ∧ c ≠ rbrace) →
      pyFormatAux ns fuel cs = .ok cs := by
  induction cs with
  | nil =>
    intro fuel hf _
    obtain ⟨f, rfl⟩ := Nat.exists_eq_succ_of_ne_zero (Nat.pos_iff_ne_zero.mp hf)
    rfl
  | cons c rest ih =>
    intro fuel hf h
    obtain ⟨f, rfl⟩ := Nat.exists_eq_succ_of_ne_zero
      (Nat.pos_iff_ne_zero.mp (Nat.lt_of_le_of_lt (Nat.zero_le _) hf))
    have hc := h c (List.mem_cons_self c rest)
    have hrest : rest.length < f := Nat.lt_of_succ_lt_succ hf
    simp only [pyFormatAux, if_neg hc.1, if_neg hc.2,
      ih f hrest (fun x hx => h x (List.mem_cons_of_mem c hx))]
    rfl

/-- On text with no `$` character, `os.path.expandvars`' scan is the
identity, whatever the fuel. -/
theorem expandVarsAux_no_dollar (envv : EnvVars) (cs : List Char) :
    ∀ fuel, (∀ c ∈ cs, c ≠ '$') → expandVarsAux envv fuel cs = cs := by
  induction cs with
  | nil => intro fuel _; cases fuel <;> rfl
  | cons c rest ih =>
    intro fuel h
    cases fuel with
    | zero => rfl
    | succ f =>
      have hc := h c (List.mem_cons_self c rest)
      simp only [expandVarsAux, if_neg hc,
        ih f (fun x hx => h x (List.mem_cons_of_mem c hx))]

/-- Lemma: `os.path.expandvars` is the identity on strings without `$`. -/
theorem expandvars_no_dollar (envv : EnvVars) (s : String)
    (h : ∀ c ∈ s.data, c ≠ '$') : expandvars envv s = s := by
  unfold expandvars
  rw [expandVarsAux_no_dollar envv s.data _ h]

/-! ## Claim C1 -/

/-- C1 counterexample: resolving a task name registered nowhere fails with
`ModuleNotFoundError` — an import error, not the `TaskResolutionError` the
claim requires (no such error class exists in the source at all). -/
theorem resolveTask_missing_is_import_error :
    resolveTask [] "no.such.module" = .error (.moduleNotFoundError "no.such.module")
    ∧ isTaskResolutionError (.moduleNotFoundError "no.such.module") = false :=
  ⟨rfl, rfl⟩

/-- Helper: `import_module` fails only with `ValueError` (empty module
name) or `ModuleNotFoundError` (unknown module), never with the spec's
`TaskResolutionError`. -/
theorem import_module_error_kind (env : ModuleEnv) (g : String) (e : PyError)
    (h : import_module env g = .error e) : isTaskResolutionError e = false := by
  unfold import_module at h
  split at h
  · injection h with h0; subst h0; rfl
  · split at h
    · exact Except.noConfusion h
    · injection h with h0; subst h0; rfl

/-- C1 (amended): resolving a step's task name follows the claimed
structure — a qualified `group:symbol` name with a non-empty symbol
resolves the capability group (module) first and then looks up the symbol
inside it, while an unqualified name, and also a qualified name whose
symbol part is empty (the falsy branch of `getattr(module, attr) if attr
else module`), resolves the group (module object) itself as the invocable
unit.  Resolution failure raises `ModuleNotFoundError` (group not
loadable), `ValueError` (empty group name, from `import_module`, or a name
with two or more colons, from tuple unpacking), or `AttributeError`
(symbol absent) — never a `TaskResolutionError`, which does not exist in
the code. -/
theorem resolveTask_structure_and_error_kinds (env : ModuleEnv) (name : String) :
    (import_module env "" = .error (.valueError "Empty module name")) ∧
    (∀ g m, g ≠ "" → importModule env g = some m → import_module env g = .ok m) ∧
    (∀ g, g ≠ "" → importModule env g = none →
      import_module env g = .error (.moduleNotFoundError g)) ∧
    (∀ mcs m, splitColon name.data = [mcs] →
      import_module env (String.mk mcs) = .ok m →
      resolveTask env name = .ok (.modObj m)) ∧
    (∀ mcs e, splitColon name.data = [mcs] →
      import_module env (String.mk mcs) = .error e →
      resolveTask env name = .error e) ∧
    (∀ mcs acs m f, splitColon name.data = [mcs, acs] → acs ≠ [] →
      import_module env (String.mk mcs) = .ok m →
      getattrFn m (String.mk acs) = some f →
      resolveTask env name = .ok (.fn f)) ∧
    (∀ mcs acs m, splitColon name.data = [mcs, acs] → acs ≠ [] →
      import_module env (String.mk mcs) = .ok m →
      getattrFn m (String.mk acs) = none →
      resolveTask env name = .error (.attributeError (String.mk acs))) ∧
    (∀ mcs m, splitColon name.data = [mcs, []] →
      import_module env (String.mk mcs) = .ok m →
      resolveTask env name = .ok (.modObj m)) ∧
    (∀ mcs acs e, splitColon name.data = [mcs, acs] →
      import_module env (String.mk mcs) = .error e →
      resolveTask env name = .error e) ∧
    (∀ e, resolveTask env name = .error e → isTaskResolutionError e = false) := by
  refine ⟨by simp [import_module], ?_, ?_, ?_, ?_, ?_, ?_, ?_, ?_, ?_⟩
  · intro g m hg himp
    simp [import_module, hg, himp]
  · intro g hg himp
    simp [import_module, hg, himp]
  · intro mcs m hsplit himp
    simp [resolveTask, hsplit, himp]
  · intro mcs e hsplit himp
    simp [resolveTask, hsplit, himp]
  · intro mcs acs m f hsplit hne himp hattr
    have hne' : acs.isEmpty = false := by
      cases acs with
      | nil => exact absurd rfl hne
      | cons a t => rfl
    simp [resolveTask, hsplit, himp, hattr, hne']
  · intro mcs acs m hsplit hne himp hattr
    have hne' : acs.isEmpty = false := by
      cases acs with
      | nil => exact absurd rfl hne
      | cons a t => rfl
    simp [resolveTask, hsplit, himp, hattr, hne']
  · intro mcs m hsplit himp
    simp [resolveTask, hsplit, himp]
  · intro mcs acs e hsplit himp
    simp [resolveTask, hsplit, himp]
  · intro e he
    unfold resolveTask at he
    split at he
    · split at he
      · exact Except.noConfusion he
      · rename_i e' himp
        injection he with h0
        subst h0
        exact import_module_error_kind _ _ _ himp
    · split at he
      · split at he
        · exact Except.noConfusion he
        · split at he
          · exact Except.noConfusion he
          · injection he with h0; subst h0; rfl
      · rename_i e' himp
        injection he with h0
        subst h0
        exact import_module_error_kind _ _ _ himp
    · injection he with h0; subst h0; rfl

/-- C1 witness: the amended theorem applied at concrete inputs — a
qualified lookup that succeeds, a qualified name with an empty symbol that
yields the module object itself, an unqualified unknown name that fails
with `ModuleNotFoundError`, and a name with an empty group part that fails
with `ValueError`. -/
theorem resolveTask_structure_and_error_kinds_witness :
    resolveTask wEnv "wmod:f" = .ok (.fn wFn)
    ∧ resolveTask wEnv "wmod:"
        = .ok (.modObj ⟨[("f", wFn), ("boom", wBoom), ("r", wRawFn), ("setvars", wSetVars)]⟩)
    ∧ resolveTask [] "missing.mod" = .error (.moduleNotFoundError "missing.mod")
    ∧ resolveTask wEnv ":f" = .error (.valueError "Empty module name") :=
  ⟨(resolveTask_structure_and_error_kinds wEnv "wmod:f").2.2.2.2.2.1
      "wmod".data "f".data
      ⟨[("f", wFn), ("boom", wBoom), ("r", wRawFn), ("setvars", wSetVars)]⟩ wFn
      rfl (by decide) rfl rfl,
    (resolveTask_structure_and_error_kinds wEnv "wmod:").2.2.2.2.2.2.2.1
      "wmod".data
      ⟨[("f", wFn), ("boom", wBoom), ("r", wRawFn), ("setvars", wSetVars)]⟩
      rfl rfl,
    (resolveTask_structure_and_error_kinds [] "missing.mod").2.2.2.2.1
      "missing.mod".data (.moduleNotFoundError "missing.mod") rfl rfl,
    (resolveTask_structure_and_error_kinds wEnv ":f").2.2.2.2.2.2.2.2.1
      [] "f".data (.valueError "Empty module name") rfl rfl⟩

/-! ## Claim C2 -/

/-- C2 counterexample: a pipeline whose first step's capability raises
`ValueError` aborts with that very `ValueError` — the failure is neither
logged nor re-raised as a `TaskExecutionError` (the log holds only the
START event, and the error kind is the capability's own) — and the second
step leaves no trace. -/
theorem failing_step_error_is_not_wrapped :
    runPipeline wEnv [] (fun _ => true) []
        [{ task := "wmod:boom" }, { task := "wmod:f" }]
      = .err (.valueError "boom") (initCtx []) [.start "wmod:boom" []]
    ∧ isTaskExecutionError (.valueError "boom") = false :=
  ⟨rfl, rfl⟩

/-- C2 (amended): when a step's capability raises during invocation, the
exception propagates unchanged — it is not caught, not logged (the log
gains only the START event) and not wrapped as a `TaskExecutionError`
(which does not exist in the code) — the run aborts so that no step after
the failing one executes, and the context is not modified after the
failing step; it is, however, not returned to the caller (`main` only
returns the context on success). -/
theorem step_failure_propagates_unwrapped
    (env : ModuleEnv) (envv : EnvVars) (fs : String → Bool)
    (varsCfg : ValueDict) (step : Step) (rest : List Step) (ctx : Ctx)
    (log : Log) (inv : Invocable) (e : PyError)
    (hguard : step.whenCond = none)
    (hres : resolveTask env step.task = .ok inv)
    (hinv : invoke inv
        (if step.mode.getD "task" = "raw" then none else some ctx)
        (stepKwargs step ctx envv) = .error e) :
    runSteps env envv fs varsCfg (step :: rest) ctx log
      = .err e ctx (log ++ [LogEvent.start step.task (stepKwargs step ctx envv)]) := by
  have hg : guardCheck envv fs varsCfg step ctx = .ok none := by
    simp [guardCheck, hguard]
  by_cases hm : step.mode.getD "task" = "raw"
  · rw [if_pos hm] at hinv
    simp [runSteps, hg, _run_step, hres, hm, hinv]
  · rw [if_neg hm] at hinv
    simp [runSteps, hg, _run_step, hres, hm, hinv]

/-- C2 witness: the amended theorem applied to a concrete two-step
pipeline whose first capability raises `ValueError`. -/
theorem step_failure_propagates_unwrapped_witness :
    runSteps wEnv [] (fun _ => true) [] [{ task := "wmod:boom" }, { task := "wmod:f" }]
        (initCtx []) []
      = .err (.valueError "boom") (initCtx []) ([] ++ [LogEvent.start "wmod:boom" []]) :=
  step_failure_propagates_unwrapped wEnv [] (fun _ => true) []
    { task := "wmod:boom" } [{ task := "wmod:f" }] (initCtx []) []
    (.fn wBoom) (.valueError "boom") rfl rfl rfl

/-! ## Claim C3 -/

/-- C3: when placeholder substitution of a text value fails for any reason
(for example a placeholder name absent from the merged
variables-and-context namespace), `_resolve_vars` does not raise: it keeps
the original, unexpanded text, and process-environment expansion is then
still attempted on that original text. -/
theorem resolve_vars_format_failure_fallback
    (s : String) (vars ctx : ValueDict) (envv : EnvVars) (e : PyError)
    (hfail : pyFormat s (dictUpdate vars ctx) = .error e) :
    _resolve_vars (.vstr s) vars ctx envv = .vstr (expandvars envv s) := by
  show (match pyFormat s (dictUpdate vars ctx) with
    | .ok out => Value.vstr (expandvars envv out)
    | .error _ => Value.vstr (expandvars envv s)) = Value.vstr (expandvars envv s)
  rw [hfail]

/-- C3 witness: a template whose only placeholder is absent from the empty
namespace fails with `KeyError`, and resolution returns the
environment-expanded original text. -/
theorem resolve_vars_format_failure_fallback_witness :
    pyFormat "\x7bmissing\x7d" (dictUpdate [] []) = .error (.keyError "missing")
    ∧ _resolve_vars (.vstr "\x7bmissing\x7d") [] [] [] = .vstr (expandvars [] "\x7bmissing\x7d")
    ∧ expandvars [] "\x7bmissing\x7d" = "\x7bmissing\x7d" :=
  ⟨rfl, resolve_vars_format_failure_fallback "\x7bmissing\x7d" [] [] []
    (.keyError "missing") rfl, rfl⟩

/-! ## Claim C4 -/

/-- C4 counterexample: step execution can change the reserved `__vars__`
key — an update-mode capability returning a mapping with key `__vars__`
overwrites it in the live context, with nothing in the engine preventing
this. -/
theorem update_can_overwrite_vars_key :
    _run_step wEnv [] { task := "wmod:setvars" } (initCtx []) []
      = .ok [("__vars__", Value.vnone)]
          [.start "wmod:setvars" [], .endStep "wmod:setvars"]
    ∧ dictGet [("__vars__", Value.vnone)] "__vars__"
        ≠ dictGet (initCtx []) "__vars__" := by
  refine ⟨rfl, ?_⟩
  intro h
  simp [dictGet, alistGet, initCtx] at h

/-- C4 (amended): the reserved `__vars__` key of the context is unchanged
by step execution provided the step does not target it — in update mode
the returned mapping must not contain the key `__vars__`, and in raw mode
`result_key` must not be `__vars__`; the engine itself never enforces
either condition. -/
theorem vars_key_preserved_without_targeting
    (env : ModuleEnv) (envv : EnvVars) (step : Step) (ctx : Ctx) (log : Log)
    (ctx2 : Ctx) (log2 : Log)
    (hraw : step.mode.getD "task" = "raw" → step.result_key ≠ some "__vars__")
    (hupd : step.mode.getD "task" ≠ "raw" →
      ∀ inv d, resolveTask env step.task = .ok inv →
        invoke inv (some ctx) (stepKwargs step ctx envv) = .ok (.vdict d) →
        dictGet d "__vars__" = none)
    (hok : _run_step env envv step ctx log = .ok ctx2 log2) :
    dictGet ctx2 "__vars__" = dictGet ctx "__vars__" := by
  simp only [_run_step] at hok
  split at hok
  · exact RunResult.noConfusion hok
  · rename_i inv hres
    split at hok
    · rename_i hm
      split at hok
      · exact RunResult.noConfusion hok
      · rename_i out hout
        split at hok
        · injection hok with h1 h2
          rw [← h1]
        · rename_i rk hrk
          injection hok with h1 h2
          rw [← h1]
          have hne : rk ≠ "__vars__" := by
            intro hh
            exact hraw hm (hrk ▸ congrArg some hh ▸ rfl)
          exact dictGet_dictSet_ne ctx rk "__vars__" out (Ne.symm hne)
    · rename_i hm
      split at hok
      · exact RunResult.noConfusion hok
      · rename_i out hout
        injection hok with h1 h2
        rw [← h1]
        cases out with
        | vdict d =>
          exact dictGet_dictUpdate_none ctx d "__vars__"
            (hupd hm inv d hres hout)
        | vstr s => rfl
        | vint n => rfl
        | vbool b => rfl
        | vnone => rfl
        | vlist xs => rfl

/-- C4 witness: the amended theorem applied to a concrete raw-mode step
whose `result_key` is `out`, not `__vars__`. -/
theorem vars_key_preserved_without_targeting_witness :
    dictGet (dictSet (initCtx []) "out" (Value.vlist [Value.vnone])) "__vars__"
      = dictGet (initCtx []) "__vars__" :=
  vars_key_preserved_without_targeting wEnv [] wStepRaw (initCtx []) []
    (dictSet (initCtx []) "out" (Value.vlist [Value.vnone]))
    ([LogEvent.start "wmod:r" [], LogEvent.resultItems "out" 1, LogEvent.endStep "wmod:r"])
    (fun _ => by decide) (fun hm => absurd rfl hm) rfl

/-! ## Claim C5 -/

/-- C5: in update mode (any mode other than `raw`), the capability is
invoked with a snapshot copy of the current context plus the resolved
parameter map (the invocation hypothesis below records exactly those
arguments), and when it returns a mapping, the step ends with that mapping
merged into the live context: every key of the returned mapping is present
afterwards with the returned value, overwriting any prior value under that
key. -/
theorem update_mode_merges_returned_mapping
    (env : ModuleEnv) (envv : EnvVars) (step : Step) (ctx : Ctx) (log : Log)
    (inv : Invocable) (d : ValueDict)
    (hmode : step.mode.getD "task" ≠ "raw")
    (hres : resolveTask env step.task = .ok inv)
    (hout : invoke inv (some ctx) (stepKwargs step ctx envv) = .ok (.vdict d))
    (hnodup : (d.map Prod.fst).Nodup) :
    _run_step env envv step ctx log
      = .ok (dictUpdate ctx d)
          (log ++ [LogEvent.start step.task (stepKwargs step ctx envv),
            LogEvent.endStep step.task])
    ∧ ∀ k v, dictGet d k = some v → dictGet (dictUpdate ctx d) k = some v := by
  constructor
  · simp [_run_step, hres, hmode, hout]
  · intro k v hkv
    exact dictGet_dictUpdate_of_mem ctx d k v hnodup hkv

/-- C5 witness: the merge equation of the update theorem at a concrete
step whose capability returns the mapping `got ↦ None`. -/
theorem update_mode_merges_returned_mapping_witness :
    _run_step wEnv [] wStepF (initCtx []) []
      = .ok (dictUpdate (initCtx []) [("got", Value.vnone)])
          ([] ++ [LogEvent.start "wmod:f" [], LogEvent.endStep "wmod:f"]) :=
  (update_mode_merges_returned_mapping wEnv [] wStepF (initCtx []) []
    (.fn wFn) [("got", Value.vnone)] (by decide) rfl rfl (by decide)).1

/-! ## Claim C6 -/

/-- C6: in raw mode with a `result_key` set, the step stores the
capability's return value verbatim under `result_key` (the invocation
hypothesis records that only the resolved parameter map is passed), and no
context key other than `result_key` changes. -/
theorem raw_mode_stores_result_key_only
    (env : ModuleEnv) (envv : EnvVars) (step : Step) (ctx : Ctx) (log : Log)
    (inv : Invocable) (out : Value) (rk : String)
    (hmode : step.mode = some "raw")
    (hrk : step.result_key = some rk)
    (hres : resolveTask env step.task = .ok inv)
    (hout : invoke inv none (stepKwargs step ctx envv) = .ok out) :
    _run_step env envv step ctx log
      = .ok (dictSet ctx rk out)
          (log ++ [LogEvent.start step.task (stepKwargs step ctx envv)]
            ++ rawResultLog rk out ++ [LogEvent.endStep step.task])
    ∧ dictGet (dictSet ctx rk out) rk = some out
    ∧ ∀ k, k ≠ rk → dictGet (dictSet ctx rk out) k = dictGet ctx k := by
  refine ⟨?_, dictGet_dictSet_self ctx rk out,
    fun k hk => dictGet_dictSet_ne ctx rk k out hk⟩
  simp [_run_step, hres, hmode, hout, hrk]

/-- C6 witness: the raw theorem's store equation at a concrete step whose
capability returns a one-element list stored under `out`. -/
theorem raw_mode_stores_result_key_only_witness :
    _run_step wEnv [] wStepRaw (initCtx []) []
      = .ok (dictSet (initCtx []) "out" (Value.vlist [Value.vnone]))
          ([] ++ [LogEvent.start "wmod:r" []]
            ++ rawResultLog "out" (Value.vlist [Value.vnone])
            ++ [LogEvent.endStep "wmod:r"]) :=
  (raw_mode_stores_result_key_only wEnv [] wStepRaw (initCtx []) []
    (.fn wRawFn) (.vlist [Value.vnone]) "out" rfl rfl rfl rfl).1

/-! ## Claim C7 -/

/-- C7: a step whose `when.file_exists` guard resolves to a path absent
from the filesystem is skipped, not failed: the loop continues with the
rest of the pipeline, the context passed on is the unchanged one (so the
step's `result_key`, if any, stays absent), no capability is invoked, and
a SKIP event naming the step and the missing path is logged. -/
theorem missing_file_guard_skips_step
    (env : ModuleEnv) (envv : EnvVars) (fs : String → Bool)
    (varsCfg : ValueDict) (step : Step) (rest : List Step) (ctx : Ctx)
    (log : Log) (cond : ValueDict) (tmpl : Value) (p : String)
    (hwhen : step.whenCond = some cond)
    (hne : cond.isEmpty = false)
    (hfe : dictGet cond "file_exists" = some tmpl)
    (hres : _resolve_vars tmpl varsCfg ctx envv = .vstr p)
    (hmiss : fs p = false) :
    runSteps env envv fs varsCfg (step :: rest) ctx log
      = runSteps env envv fs varsCfg rest ctx (log ++ [LogEvent.skip step.task p]) := by
  have hg : guardCheck envv fs varsCfg step ctx = .ok (some p) := by
    simp [guardCheck, hwhen, hne, hfe, hres, valueToPath, hmiss]
  simp [runSteps, hg]

/-- C7 witness: the skip theorem at a concrete guarded step over a
filesystem on which no path exists. -/
theorem missing_file_guard_skips_step_witness :
    runSteps wEnv [] (fun _ => false) [] [wStepGuard] (initCtx []) []
      = runSteps wEnv [] (fun _ => false) [] [] (initCtx [])
          ([] ++ [LogEvent.skip "wmod:f" "/data/in.xlsx"]) :=
  missing_file_guard_skips_step wEnv [] (fun _ => false) [] wStepGuard []
    (initCtx []) [] [("file_exists", .vstr "/data/in.xlsx")]
    (.vstr "/data/in.xlsx") "/data/in.xlsx" rfl rfl rfl rfl rfl

/-! ## Claim C8 -/

/-- C8 counterexample: the brace escape makes resolution change a text
that contains no placeholder at all: `\x7b\x7b` resolves to the single
brace `\x7b`, so resolution is not the identity on placeholder-free
templates. -/
theorem resolve_vars_not_identity_on_brace_escape :
    _resolve_vars (.vstr "\x7b\x7b") [] [] [] = .vstr "\x7b"
    ∧ ("\x7b" : String) ≠ "\x7b\x7b" :=
  ⟨rfl, by decide⟩

/-- C8 (amended): on a text template containing no brace characters (hence
no placeholder, no brace escape and no malformed brace, which Python's
formatter also rewrites or rejects) and no `$` character (hence no
process-environment reference), variable resolution is the identity. -/
theorem resolve_vars_identity_plain_text
    (s : String) (vars ctx : ValueDict) (envv : EnvVars)
    (h : ∀ c ∈ s.data, c ≠ lbrace ∧ c ≠ rbrace ∧ c ≠ '$') :
    _resolve_vars (.vstr s) vars ctx envv = .vstr s := by
  have hfmt : pyFormat s (dictUpdate vars ctx) = .ok s := by
    unfold pyFormat
    rw [pyFormatAux_plain (dictUpdate vars ctx) s.data (s.data.length + 1)
      (Nat.lt_succ_self _) (fun c hc => ⟨(h c hc).1, (h c hc).2.1⟩)]
    rfl
  show (match pyFormat s (dictUpdate vars ctx) with
    | .ok out => Value.vstr (expandvars envv out)
    | .error _ => Value.vstr (expandvars envv s)) = Value.vstr s
  rw [hfmt]
  show Value.vstr (expandvars envv s) = Value.vstr s
  rw [expandvars_no_dollar envv s (fun c hc => (h c hc).2.2)]

/-- C8 witness: identity on a concrete plain text. -/
theorem resolve_vars_identity_plain_text_witness :
    _resolve_vars (.vstr "hello world") [] [] [] = .vstr "hello world" :=
  resolve_vars_identity_plain_text "hello world" [] [] [] (by decide)

/-! ## Claim C9 -/

/-- C9: in the diagnostic snapshot `safe_ctx`, looking up any key whose
name contains the substring `pass` case-insensitively yields the fixed
mask token `***` in place of the real value, while keys without that
substring keep their real values. -/
theorem safe_ctx_masks_pass_keys (ctx : Ctx) (k : String) :
    dictGet (safe_ctx ctx) k
      = (dictGet ctx k).map
          (fun v => if containsPass k then Value.vstr "***" else v) := by
  induction ctx with
  | nil => rfl
  | cons kv tl ih =>
    obtain ⟨k0, v0⟩ := kv
    by_cases hk : k0 = k
    · subst hk
      simp [safe_ctx, dictGet, alistGet]
    · simpa [safe_ctx, dictGet, alistGet, hk] using ih

/-! ## Claim C10 -/

/-- C10: any mode value other than the exact string `raw` — in particular
the internal default `task` used when the field is absent, and any
unrecognized string — is dispatched with update-mode semantics: the step
behaves exactly as if its mode field were absent.  Mode is never
validated and no error is raised for an unrecognized value. -/
theorem non_raw_mode_behaves_as_default
    (env : ModuleEnv) (envv : EnvVars) (step : Step) (ctx : Ctx) (log : Log)
    (hmode : step.mode.getD "task" ≠ "raw") :
    _run_step env envv step ctx log
      = _run_step env envv { step with mode := none } ctx log := by
  simp only [_run_step, hmode]
  rfl

/-- C10 witness: a step with the unrecognized mode string `banana` runs
exactly like the same step with no mode field. -/
theorem non_raw_mode_behaves_as_default_witness :
    _run_step wEnv [] wStepBanana (initCtx []) []
      = _run_step wEnv [] { wStepBanana with mode := none } (initCtx []) [] :=
  non_raw_mode_behaves_as_default wEnv [] wStepBanana (initCtx []) [] (by decide)

end Orchestrator
